import Mathlib

/-!
Shallow embedding of the gossh inventory-resolution model
(src/internal/config/config.go), SSH session client
(src/internal/ssh/client.go) and bounded concurrent executor
(src/unnamed/part_013), with theorems settling the frozen claims.

Machine integers are modelled as `Int`/`Nat` (no value here approaches any
overflow boundary), Go strings as Lean `String`, Go `error` values as
`Option String` / `Except String`, files as lists of their lines, and
wall-clock durations are not modelled (no claim mentions them).
-/

deriving instance DecidableEq for Except

namespace Gossh

/-- executor.Host (src/unnamed/part_013 lines 23-29): address, SSH port,
user, private-key path and the list of groups the host belongs to. -/
structure Host where
  address : String
  port : String
  user : String
  keyPath : String
  groups : List String
deriving Repr, DecidableEq, Inhabited

/-- Go `unicode.IsSpace` restricted to the ASCII whitespace characters
(the host files are ASCII); used to model `strings.TrimSpace`. -/
def goIsSpace (c : Char) : Bool :=
  c = ' ' || c = '\t' || c = '\n' || c = '\r' || c = '\x0b' || c = '\x0c'

/-- `strings.TrimSpace` on the character list: drop whitespace from both ends. -/
def goTrimChars (cs : List Char) : List Char :=
  ((cs.dropWhile goIsSpace).reverse.dropWhile goIsSpace).reverse

/-- `strings.TrimSpace` on strings. -/
def goTrimSpace (s : String) : String :=
  String.mk (goTrimChars s.toList)

/-- Go `strings.Index(string(cs), string(c))` for a one-character needle:
index of the first occurrence, `none` when absent (Go returns -1). -/
def goIndex (cs : List Char) (c : Char) : Option Nat :=
  match cs with
  | [] => none
  | x :: xs => if x = c then some 0 else (goIndex xs c).map (· + 1)

/-- Go `strings.LastIndex(string(cs), string(c))` for a one-character
needle: index of the last occurrence, `none` when absent. -/
def goLastIndex (cs : List Char) (c : Char) : Option Nat :=
  match cs with
  | [] => none
  | x :: xs =>
    match goLastIndex xs c with
    | some i => some (i + 1)
    | none => if x = c then some 0 else none

/-- config.go line 265: `host.User = line[:idx]` for the first `@` (the Go
zero value "" when there is no `@`). -/
def userPart (cs : List Char) : List Char :=
  match goIndex cs '@' with
  | some i => cs.take i
  | none => []

/-- config.go line 267: `line = line[idx+1:]` — the text left after
stripping the optional `user@` prefix. -/
def hostPart (cs : List Char) : List Char :=
  match goIndex cs '@' with
  | some i => cs.drop (i + 1)
  | none => cs

/-- parseHostLine (src/internal/config/config.go lines 259-279): parse
`[user@]host[:port]`. The text before the first `@` (if any) becomes the
user; of the remainder, the text after the last `:` (if any) becomes the
port, defaulting to "22" when no colon is present. -/
def parseHostLine (line : String) : Host :=
  let rest := hostPart line.toList
  match goLastIndex rest ':' with
  | some i =>
      { address := String.mk (rest.take i), port := String.mk (rest.drop (i + 1)),
        user := String.mk (userPart line.toList), keyPath := "", groups := [] }
  | none =>
      { address := String.mk rest, port := "22",
        user := String.mk (userPart line.toList), keyPath := "", groups := [] }

/-- Go `strings.HasPrefix(line, "#")`: the line's first character is '#'. -/
def goStartsWithHash (line : String) : Bool :=
  match line.toList with
  | '#' :: _ => true
  | _ => false

/-- The scanner skip test used by every loader (config.go lines 216-218,
176-178, 464-466, 496-498): blank after TrimSpace, or a '#' comment. -/
def skipLine (line : String) : Bool :=
  line = "" || goStartsWithHash line

/-- loadHostsFromPlain (config.go lines 210-229): each line is trimmed;
blank lines and lines starting with '#' are skipped; every other line
contributes one parsed host, in order. -/
def loadHostsFromPlain (lines : List String) : List Host :=
  lines.filterMap fun raw =>
    let line := goTrimSpace raw
    if skipLine line then none
    else some (parseHostLine line)

example : parseHostLine "root@h1:2022" = ⟨"h1", "2022", "root", "", []⟩ := by decide
example : parseHostLine "h1" = ⟨"h1", "22", "", "", []⟩ := by decide
example : parseHostLine "h1:" = ⟨"h1", "", "", "", []⟩ := by decide
example : parseHostLine "::1:2222" = ⟨"::1", "2222", "", "", []⟩ := by decide

theorem goIndex_eq_none_iff (cs : List Char) (c : Char) : goIndex cs c = none ↔ c ∉ cs := by
  induction cs with
  | nil => simp [goIndex]
  | cons x xs ih =>
    by_cases hx : x = c
    · simp [goIndex, hx]
    · simp [goIndex, hx, Option.map_eq_none', ih, Ne.symm hx]

theorem goLastIndex_eq_none_iff (cs : List Char) (c : Char) : goLastIndex cs c = none ↔ c ∉ cs := by
  induction cs with
  | nil => simp [goLastIndex]
  | cons x xs ih =>
    cases h : goLastIndex xs c with
    | some i =>
      have hc : c ∈ xs := by
        by_contra hn
        rw [ih.mpr hn] at h
        cases h
      simp [goLastIndex, h, hc]
    | none =>
      have hn : c ∉ xs := ih.mp h
      by_cases hx : x = c
      · simp [goLastIndex, h, hx]
      · simp [goLastIndex, h, hx, hn, Ne.symm hx]

theorem goIndex_append (a b : List Char) (c : Char) (h : c ∉ a) :
    goIndex (a ++ c :: b) c = some a.length := by
  induction a with
  | nil => simp [goIndex]
  | cons x xs ih =>
    have hx : ¬ x = c := fun e => h (by simp [e])
    have h' : c ∉ xs := fun hm => h (List.mem_cons_of_mem x hm)
    simp [goIndex, hx, ih h']

theorem goLastIndex_append (a b : List Char) (c : Char) (h : c ∉ b) :
    goLastIndex (a ++ c :: b) c = some a.length := by
  induction a with
  | nil =>
    have hb : goLastIndex b c = none := (goLastIndex_eq_none_iff b c).mpr h
    simp [goLastIndex, hb]
  | cons x xs ih => simp [goLastIndex, ih]

theorem take_length_append (a b : List Char) : (a ++ b).take a.length = a := by
  induction a with
  | nil => rfl
  | cons x xs ih => simp [ih]

theorem drop_length_succ_append (a : List Char) (c : Char) (b : List Char) :
    (a ++ c :: b).drop (a.length + 1) = b := by
  induction a with
  | nil => rfl
  | cons x xs ih => simp [ih]

theorem string_mk_toList (s : String) : String.mk s.toList = s := rfl

theorem string_mk_nil : String.mk [] = "" := rfl

theorem string_toList_append (s t : String) : (s ++ t).toList = s.toList ++ t.toList := rfl

/-- `parseHostLine` on a line with a (first) `@` at a known place: the prefix
is the user and the remainder is handled for host/port. -/
theorem hostPart_userPart_at (u tail : List Char) (hu : '@' ∉ u) :
    userPart (u ++ '@' :: tail) = u ∧ hostPart (u ++ '@' :: tail) = tail := by
  constructor
  · simp [userPart, goIndex_append u tail '@' hu, take_length_append]
  · simp [hostPart, goIndex_append u tail '@' hu, drop_length_succ_append]

theorem hostPart_userPart_no_at (cs : List Char) (h : '@' ∉ cs) :
    userPart cs = [] ∧ hostPart cs = cs := by
  have hn : goIndex cs '@' = none := (goIndex_eq_none_iff cs '@').mpr h
  constructor
  · simp [userPart, hn]
  · simp [hostPart, hn]

/-- `parseHostLine` splits the post-`@` remainder at its last colon. -/
theorem parseHostLine_of_hostPart_split (line : String) (a b : List Char)
    (hsplit : hostPart line.toList = a ++ ':' :: b) (hb : ':' ∉ b) :
    parseHostLine line =
      { address := String.mk a, port := String.mk b,
        user := String.mk (userPart line.toList), keyPath := "", groups := [] } := by
  have hidx : goLastIndex (hostPart line.toList) ':' = some a.length := by
    rw [hsplit]; exact goLastIndex_append a b ':' hb
  simp only [String.toList] at hsplit
  simp [parseHostLine, hsplit, goLastIndex_append a b ':' hb,
    take_length_append, drop_length_succ_append]

theorem parseHostLine_of_no_colon (line : String) (h : ':' ∉ hostPart line.toList) :
    parseHostLine line =
      { address := String.mk (hostPart line.toList), port := "22",
        user := String.mk (userPart line.toList), keyPath := "", groups := [] } := by
  have hidx : goLastIndex (hostPart line.toList) ':' = none :=
    (goLastIndex_eq_none_iff _ ':').mpr h
  simp only [String.toList] at hidx
  simp [parseHostLine, hidx]

/-- C9: for every line of a flat host source that is non-blank and does not
start with '#', parsing follows the grammar `[user@]host[:port]`: the prefix
before the '@' (when present) becomes the user, the suffix after the port
separator becomes the port, a line with no port yields the default port
"22", and blank or '#' lines contribute no host. -/
theorem loadHostsFromPlain_line_grammar :
    (∀ (raw : String) (rest : List String),
        goTrimSpace raw = "" ∨ goStartsWithHash (goTrimSpace raw) = true →
        loadHostsFromPlain (raw :: rest) = loadHostsFromPlain rest) ∧
    (∀ (raw : String) (rest : List String),
        ¬ goTrimSpace raw = "" → ¬ goStartsWithHash (goTrimSpace raw) = true →
        loadHostsFromPlain (raw :: rest) =
          parseHostLine (goTrimSpace raw) :: loadHostsFromPlain rest) ∧
    (∀ u h p : String, '@' ∉ u.toList → ':' ∉ p.toList →
        parseHostLine (u ++ "@" ++ h ++ ":" ++ p) = ⟨h, p, u, "", []⟩) ∧
    (∀ u h : String, '@' ∉ u.toList → ':' ∉ h.toList →
        parseHostLine (u ++ "@" ++ h) = ⟨h, "22", u, "", []⟩) ∧
    (∀ h p : String, '@' ∉ h.toList → '@' ∉ p.toList → ':' ∉ p.toList →
        parseHostLine (h ++ ":" ++ p) = ⟨h, p, "", "", []⟩) ∧
    (∀ h : String, '@' ∉ h.toList → ':' ∉ h.toList →
        parseHostLine h = ⟨h, "22", "", "", []⟩) := by
  refine ⟨?_, ?_, ?_, ?_, ?_, ?_⟩
  · intro raw rest hskip
    have hs : skipLine (goTrimSpace raw) = true := by
      rcases hskip with h0 | h0 <;> simp [skipLine, h0]
    simp [loadHostsFromPlain, hs]
  · intro raw rest h0 h1
    have hs : skipLine (goTrimSpace raw) = false := by
      simp [skipLine, h0, h1]
    simp [loadHostsFromPlain, hs]
  · intro u h p hu hp
    have hto : (u ++ "@" ++ h ++ ":" ++ p).toList
        = u.toList ++ '@' :: (h.toList ++ ':' :: p.toList) := by
      simp [string_toList_append]
    have hsplit := hostPart_userPart_at u.toList (h.toList ++ ':' :: p.toList) hu
    have hd : userPart (u ++ "@" ++ h ++ ":" ++ p).toList = u.toList := by
      rw [hto]; exact hsplit.1
    rw [parseHostLine_of_hostPart_split (u ++ "@" ++ h ++ ":" ++ p) h.toList p.toList
        (by rw [hto, hsplit.2]) hp, hd]
    simp [string_mk_toList]
  · intro u h hu hh
    have hto : (u ++ "@" ++ h).toList = u.toList ++ '@' :: h.toList := by
      simp [string_toList_append]
    have hsplit := hostPart_userPart_at u.toList h.toList hu
    have hd1 : userPart (u ++ "@" ++ h).toList = u.toList := by rw [hto]; exact hsplit.1
    have hd2 : hostPart (u ++ "@" ++ h).toList = h.toList := by rw [hto]; exact hsplit.2
    rw [parseHostLine_of_no_colon (u ++ "@" ++ h) (by rw [hd2]; exact hh), hd1, hd2]
    simp [string_mk_toList]
  · intro h p hh hp hp'
    have hto : (h ++ ":" ++ p).toList = h.toList ++ ':' :: p.toList := by
      simp [string_toList_append]
    have hat : '@' ∉ (h ++ ":" ++ p).toList := by
      rw [hto]
      intro hmem
      rcases List.mem_append.mp hmem with hm | hm
      · exact hh hm
      · rcases List.mem_cons.mp hm with hm' | hm'
        · cases hm'
        · exact hp hm'
    have hsplit := hostPart_userPart_no_at (h ++ ":" ++ p).toList hat
    have hd : userPart (h ++ ":" ++ p).toList = [] := hsplit.1
    rw [parseHostLine_of_hostPart_split (h ++ ":" ++ p) h.toList p.toList
        (by rw [hsplit.2, hto]) hp', hd]
    simp [string_mk_toList, string_mk_nil]
  · intro h hh hc
    have hsplit := hostPart_userPart_no_at h.toList hh
    have hd1 : userPart h.toList = [] := hsplit.1
    have hd2 : hostPart h.toList = h.toList := hsplit.2
    rw [parseHostLine_of_no_colon h (by rw [hd2]; exact hc), hd1, hd2]
    simp [string_mk_toList, string_mk_nil]

/-- Witness for C9 at concrete inputs: a comment line contributes nothing and
the grammar cases evaluate as stated. -/
theorem loadHostsFromPlain_line_grammar_witness :
    loadHostsFromPlain [" # comment", "", "deploy@web1:2022"]
      = [⟨"web1", "2022", "deploy", "", []⟩] ∧
    parseHostLine ("deploy" ++ "@" ++ "web1" ++ ":" ++ "2022")
      = ⟨"web1", "2022", "deploy", "", []⟩ := by
  constructor
  · decide
  · exact loadHostsFromPlain_line_grammar.2.2.1 "deploy" "web1" "2022"
      (by decide) (by decide)

/-- C10: parseHostLine is total and splits the post-`user@` remainder on its
LAST colon: whenever that remainder is `a ++ ':' :: b` with no colon in `b`,
the address is `a` and the port is `b` (so a line ending in ':' yields port
"", and an IPv6-style address keeps everything after its last colon as the
port); the default "22" applies only when no colon is present. -/
theorem parseHostLine_splits_on_last_colon :
    (∀ (line : String) (a b : List Char),
        hostPart line.toList = a ++ ':' :: b → ':' ∉ b →
        (parseHostLine line).address = String.mk a ∧
        (parseHostLine line).port = String.mk b) ∧
    (∀ line : String, ':' ∉ hostPart line.toList →
        (parseHostLine line).port = "22" ∧
        (parseHostLine line).address = String.mk (hostPart line.toList)) ∧
    (parseHostLine "h1:").port = "" ∧
    parseHostLine "::1:2222" = ⟨"::1", "2222", "", "", []⟩ := by
  refine ⟨?_, ?_, by decide, by decide⟩
  · intro line a b hsplit hb
    rw [parseHostLine_of_hostPart_split line a b hsplit hb]
    exact ⟨rfl, rfl⟩
  · intro line h
    rw [parseHostLine_of_no_colon line h]
    exact ⟨rfl, rfl⟩

/-- Witness for C10 at a concrete input: "u@a:b:9" splits on the last colon. -/
theorem parseHostLine_splits_on_last_colon_witness :
    (parseHostLine "u@a:b:9").address = "a:b" ∧ (parseHostLine "u@a:b:9").port = "9" := by
  have := parseHostLine_splits_on_last_colon.1 "u@a:b:9"
    ("a:b".toList) ("9".toList) (by decide) (by decide)
  exact this

/-! Group parsing and aggregation (src/internal/config/config.go). -/

/-- Membership of a string in a list, as the Go loops write it. -/
def memStr (g : String) : List String → Bool
  | [] => false
  | x :: rest => if x = g then true else memStr g rest

/-- Go `strings.Split(s, ",")` (config.go line 38): split at every comma,
keeping empty pieces. -/
def goSplitCommaAux : List Char → List Char → List String
  | [], acc => [String.mk acc.reverse]
  | c :: rest, acc =>
    if c = ',' then String.mk acc.reverse :: goSplitCommaAux rest []
    else goSplitCommaAux rest (c :: acc)

def goSplitComma (s : String) : List String :=
  goSplitCommaAux s.toList []

/-- parseGroups' accumulation loop (config.go lines 42-56): trim each part,
skip empties, return `[]` (meaning "all groups") as soon as a part is
"all", and collect the rest deduplicated in first-seen order. -/
def parseGroupsAux : List String → List String → List String
  | [], groups => groups
  | part :: rest, groups =>
    let part := goTrimSpace part
    if part = "" then parseGroupsAux rest groups
    else if part = "all" then []
    else if memStr part groups then parseGroupsAux rest groups
    else parseGroupsAux rest (groups ++ [part])

/-- parseGroups (config.go lines 32-59): "" or "all" (or any list containing
"all") means every group; otherwise the comma-separated, trimmed,
deduplicated group names in first-seen order. -/
def parseGroups (groupStr : String) : List String :=
  if groupStr = "" || groupStr = "all" then []
  else parseGroupsAux (goSplitComma groupStr) []

/-- isGroupMatch (config.go lines 63-73): an empty target list matches every
group; otherwise exact string equality against one of the targets. -/
def isGroupMatch (hostGroup : String) (targetGroups : List String) : Bool :=
  if targetGroups.isEmpty then true else memStr hostGroup targetGroups

example : parseGroups "all" = [] := by decide
example : parseGroups " web, db,web " = ["web", "db"] := by decide
example : parseGroups "web,all" = [] := by decide

/-- The `^\s*\[(.+)\]\s*$` section pattern applied to an already-trimmed
line (config.go lines 143, 168, 457): the line is `[` + at least one
character + `]`, and the captured middle is trimmed to give the group
name. Returns the group name when the line is a section header. -/
def sectionName? (t : List Char) : Option (List Char) :=
  match t with
  | '[' :: rest =>
      if rest.length < 2 then none
      else if rest.getLast? = some ']' then some (goTrimChars rest.dropLast)
      else none
  | _ => none

/-- The non-capturing form used by detectINIFormat (config.go line 143). -/
def isSectionLine (t : List Char) : Bool :=
  (sectionName? t).isSome

example : sectionName? "[web]".toList = some "web".toList := by decide
example : sectionName? "[ web ]".toList = some "web".toList := by decide
example : sectionName? "[]".toList = none := by decide
example : sectionName? "host1".toList = none := by decide

/-- detectINIFormat (config.go lines 141-161): the file is INI when some
non-blank, non-comment line is a `[section]` header. -/
def detectINIFormat (lines : List String) : Bool :=
  lines.any fun raw =>
    let line := goTrimSpace raw
    if skipLine line then false
    else isSectionLine line.toList

/-- loadHostsFromINIWithGroups' scanner loop (config.go lines 454-487):
track the current `[group]`; every host line contributes one
(host, currentGroup) pair. -/
def loadHostsFromINIWithGroupsAux :
    List String → String → List (Host × String) → List (Host × String)
  | [], _, acc => acc
  | raw :: rest, currentGroup, acc =>
    let line := goTrimSpace raw
    if skipLine line then loadHostsFromINIWithGroupsAux rest currentGroup acc
    else
      match sectionName? line.toList with
      | some g => loadHostsFromINIWithGroupsAux rest (String.mk g) acc
      | none =>
          loadHostsFromINIWithGroupsAux rest currentGroup
            (acc ++ [(parseHostLine line, currentGroup)])

/-- loadHostsFromPlainWithGroups (config.go lines 490-512): plain files
carry no group, every host pairs with "". -/
def loadHostsFromPlainWithGroups (lines : List String) : List (Host × String) :=
  lines.filterMap fun raw =>
    let line := goTrimSpace raw
    if skipLine line then none
    else some (parseHostLine line, "")

/-- loadHostsFromFileWithGroups (config.go lines 429-451): detect the
format, then parse the whole file into (host, group) pairs. -/
def loadHostsFromFileWithGroups (lines : List String) : List (Host × String) :=
  if detectINIFormat lines then loadHostsFromINIWithGroupsAux lines "" []
  else loadHostsFromPlainWithGroups lines

/-- The dedup key `fmt.Sprintf("%s:%s", address, port)` (config.go lines
95, 122, 348, ...). -/
def hostKey (h : Host) : String :=
  h.address ++ ":" ++ h.port

/-- Go map read `hostGroupsMap[key]` (missing key gives the empty list). -/
def lookupGroups (m : List (String × List String)) (k : String) : List String :=
  match m with
  | [] => []
  | e :: rest => if e.1 = k then e.2 else lookupGroups rest k

/-- Go map write `hostGroupsMap[key] = v`. -/
def mapSet (m : List (String × List String)) (k : String) (v : List String) :
    List (String × List String) :=
  match m with
  | [] => [(k, v)]
  | e :: rest => if e.1 = k then (k, v) :: rest else e :: mapSet rest k v

/-- The host→groups map construction (config.go lines 88-110 and 363-385):
skip pairs whose group fails the filter, then append each non-"" group to
its host's entry unless already present. -/
def buildHostGroupsMap (targetGroups : List String) (hwgs : List (Host × String)) :
    List (String × List String) :=
  hwgs.foldl (fun m hwg =>
    if !targetGroups.isEmpty && !isGroupMatch hwg.2 targetGroups then m
    else if hwg.2 = "" then m
    else
      let key := hostKey hwg.1
      let groups := lookupGroups m key
      if memStr hwg.2 groups then m
      else mapSet m key (groups ++ [hwg.2])) []

/-- The host-collection loops (config.go lines 113-129, 391-401, 402-415):
keep pairs passing `keep`, dedup by host key, and fill each kept host's
groups from the map. -/
def collectHosts (keep : Host × String → Bool) (m : List (String × List String))
    (hwgs : List (Host × String)) : List Host :=
  (hwgs.foldl (fun (st : List String × List Host) hwg =>
      if keep hwg then
        let key := hostKey hwg.1
        if memStr key st.1 then st
        else (st.1 ++ [key], st.2 ++ [{ hwg.1 with groups := lookupGroups m key }])
      else st) ([], [])).2

/-- The zero-match error text (config.go lines 133-134, 421-422). -/
def noGroupsMsg (targetGroups : List String) : String :=
  "未找到分组 '" ++ String.intercalate "," targetGroups ++ "' 或这些分组中没有主机"

/-- LoadHostsFromFileWithGroup (config.go lines 77-138), over the file's
lines: parse all (host, group) pairs, build the group map, collect the
filtered deduplicated hosts, and fail naming the groups when a non-empty
filter matched nothing. -/
def loadHostsFromFileWithGroup (lines : List String) (group : String) :
    Except String (List Host) :=
  let targetGroups := parseGroups group
  let hwgs := loadHostsFromFileWithGroups lines
  let m := buildHostGroupsMap targetGroups hwgs
  let hosts := collectHosts
    (fun hwg => !(!targetGroups.isEmpty && !isGroupMatch hwg.2 targetGroups)) m hwgs
  if !targetGroups.isEmpty && hosts.isEmpty then .error (noGroupsMsg targetGroups)
  else .ok hosts

/-- The directory walk's aggregation (config.go lines 317-356): files in
walk order, each parsed for all (host, group) pairs, aggregated under a
dedup on the host key `address:port` that keeps only the FIRST pair seen
for a host. -/
def aggregateDirectory (files : List (List String)) : List (Host × String) :=
  (files.foldl (fun (st : List String × List (Host × String)) file =>
      (loadHostsFromFileWithGroups file).foldl (fun st hwg =>
          let key := hostKey hwg.1
          if memStr key st.1 then st
          else (st.1 ++ [key], st.2 ++ [hwg])) st)
    ([], [])).2

/-- LoadHostsFromDirectory (config.go lines 290-426), over the matched
files' lines: aggregate (with the host-key dedup), build the group map,
filter, and fail when nothing survives. -/
def loadHostsFromDirectory (files : List (List String)) (group : String) :
    Except String (List Host) :=
  let targetGroups := parseGroups group
  let allHostsWithGroup := aggregateDirectory files
  let m := buildHostGroupsMap targetGroups allHostsWithGroup
  let resultHosts :=
    if targetGroups.isEmpty then
      collectHosts (fun _ => true) m allHostsWithGroup
    else
      collectHosts (fun hwg => isGroupMatch hwg.2 targetGroups) m allHostsWithGroup
  if resultHosts.isEmpty then
    if targetGroups.isEmpty then .error "目录中没有找到有效的主机列表"
    else .error (noGroupsMsg targetGroups)
  else .ok resultHosts

/-- C2 (evaluation at the failing input): a host declared under `[web]` in
one file and under `[web2]` in a second file, resolved from the directory
with filter "all", comes back with groups `["web"]` only — the aggregation
dedup on the host key (config.go lines 347-353) drops the second file's
(host, "web2") pair before the group map is built, so the union
`["web", "web2"]` the claim (and the single-file path, config.go lines
88-110) produces is NOT returned, and filtering the same directory by
"web2" even fails. -/
theorem loadHostsFromDirectory_drops_cross_file_group :
    loadHostsFromDirectory [["[web]", "h1"], ["[web2]", "h1"]] "all"
      = .ok [⟨"h1", "22", "", "", ["web"]⟩] ∧
    loadHostsFromDirectory [["[web]", "h1"], ["[web2]", "h1"]] "all"
      ≠ .ok [⟨"h1", "22", "", "", ["web", "web2"]⟩] ∧
    loadHostsFromFileWithGroup ["[web]", "h1", "[web2]", "h1"] "all"
      = .ok [⟨"h1", "22", "", "", ["web", "web2"]⟩] ∧
    loadHostsFromDirectory [["[web]", "h1"], ["[web2]", "h1"]] "web2"
      = .error (noGroupsMsg ["web2"]) := by
  refine ⟨rfl, by decide, rfl, rfl⟩

/-- The outcome shape C5 asserts: a non-empty host list on success, or an
error message that contains `mid` (the comma-joined requested groups)
verbatim. -/
def nonemptyOrNames (mid : String) : Except String (List Host) → Prop
  | .ok hosts => hosts ≠ []
  | .error e => ∃ p q, e = p ++ mid ++ q

theorem nonemptyOrNames_ite (hosts : List Host) (msg mid : String)
    (hmsg : ∃ p q, msg = p ++ mid ++ q) :
    nonemptyOrNames mid (if hosts.isEmpty then .error msg else .ok hosts) := by
  cases hosts with
  | nil => simpa [nonemptyOrNames] using hmsg
  | cons a l => simp [nonemptyOrNames]

/-- C5: whenever the derived group filter is non-empty, host resolution
(file path and directory path) never returns an empty host list: it either
returns a non-empty list or fails with an error naming the requested
group(s) (their comma-joined list appears verbatim in the message). -/
theorem resolution_fails_on_zero_matches (lines : List String)
    (files : List (List String)) (group : String)
    (hg : parseGroups group ≠ []) :
    nonemptyOrNames (String.intercalate "," (parseGroups group))
      (loadHostsFromFileWithGroup lines group) ∧
    nonemptyOrNames (String.intercalate "," (parseGroups group))
      (loadHostsFromDirectory files group) := by
  have hne : (parseGroups group).isEmpty = false := by
    cases h : parseGroups group with
    | nil => exact absurd h hg
    | cons a l => rfl
  constructor
  · rw [loadHostsFromFileWithGroup]
    simp only [hne, Bool.not_false, Bool.true_and]
    exact nonemptyOrNames_ite _ _ _ ⟨"未找到分组 '", "' 或这些分组中没有主机", rfl⟩
  · rw [loadHostsFromDirectory]
    simp only [hne, Bool.not_false, Bool.true_and, Bool.false_eq_true, if_false]
    exact nonemptyOrNames_ite _ _ _ ⟨"未找到分组 '", "' 或这些分组中没有主机", rfl⟩

/-- Witness for C5: filter "db" against a file and a directory that only
declare group "web" fails with the group named; filter "web" succeeds with
a non-empty list. -/
theorem resolution_fails_on_zero_matches_witness :
    parseGroups "db" ≠ [] ∧
    loadHostsFromFileWithGroup ["[web]", "h1"] "db" = .error (noGroupsMsg ["db"]) ∧
    nonemptyOrNames (String.intercalate "," (parseGroups "db"))
      (loadHostsFromFileWithGroup ["[web]", "h1"] "db") ∧
    nonemptyOrNames (String.intercalate "," (parseGroups "db"))
      (loadHostsFromDirectory [["[web]", "h1"]] "db") := by
  refine ⟨by decide, rfl, ?_, ?_⟩
  · exact (resolution_fails_on_zero_matches ["[web]", "h1"] [["[web]", "h1"]] "db"
      (by decide)).1
  · exact (resolution_fails_on_zero_matches ["[web]", "h1"] [["[web]", "h1"]] "db"
      (by decide)).2

/-! SSH session client (src/internal/ssh/client.go). Network effects are
modelled by an explicit environment recording each remote step's outcome;
Go's (*Result, error) returns become explicit pairs, with `Option String`
for the error. Wall-clock Duration is not modelled. -/

/-- ssh.Result (client.go lines 562-570) without the Duration field. -/
structure SshResult where
  host : String
  command : String
  stdout : String
  stderr : String
  exitCode : Int
  error : Option String
deriving Repr, DecidableEq, Inhabited

/-- What `session.Wait()` reports (client.go line 163): no error, an
`*ssh.ExitError` carrying the remote process's exit status, or some other
error with no distinguishable exit status. -/
inductive WaitOutcome where
  | success
  | exitError (status : Int)
  | otherError (msg : String)
deriving Repr, DecidableEq

/-- waitForCommand (client.go lines 162-170): the exit status when the wait
error is a distinguishable `*ssh.ExitError`; 0 in every other case —
including a non-ExitError wait error. -/
def waitForCommand : WaitOutcome → Int
  | .success => 0
  | .exitError status => status
  | .otherError _ => 0

/-- buildCommand (client.go lines 149-159): the elevation prefix. -/
def buildCommand (command : String) (become : Bool) (becomeUser : String) : String :=
  if !become then command
  else if becomeUser ≠ "" && becomeUser ≠ "root" then
    "sudo -u " ++ becomeUser ++ " " ++ command
  else "sudo " ++ command

/-- Environment of one ExecuteWithBecome call: which step failed, or the
drained stdout/stderr and the wait outcome of a started command. -/
inductive ExecOutcome where
  | connectErr (e : String)
  | sessionErr (e : String)
  | pipesErr (e : String)
  | startErr (e : String)
  | ran (stdout stderr : String) (wait : WaitOutcome)
deriving Repr, DecidableEq

/-- ExecuteWithBecome (client.go lines 72-112): early error returns give
(nil, err); a started command drains output, waits, and returns a Result
whose ExitCode comes from waitForCommand and whose Error field is the
(nil at that point) pipe-setup error — the wait error is never attached. -/
def executeWithBecome (host command : String) (become : Bool) (becomeUser : String)
    (o : ExecOutcome) : Except String SshResult :=
  match o with
  | .connectErr e => .error ("连接失败: " ++ e)
  | .sessionErr e => .error ("创建会话失败: " ++ e)
  | .pipesErr e => .error e
  | .startErr e => .error ("启动命令失败: " ++ e)
  | .ran out errOut wait =>
      .ok { host := host, command := command, stdout := out, stderr := errOut,
            exitCode := waitForCommand wait, error := none }

/-- C3 counterexample at a concrete input: a wait that reports an error
which is NOT a distinguishable exit status still produces a Result with
exitCode 0 (and no error attached), contradicting "exitCode is 0 only when
no error was reported by the command wait". -/
theorem executeWithBecome_zero_exit_on_nonexit_wait_error :
    waitForCommand (.otherError "connection lost before exit status") = 0 ∧
    executeWithBecome "h1" "true" false ""
        (.ran "" "" (.otherError "connection lost before exit status"))
      = .ok { host := "h1", command := "true", stdout := "", stderr := "",
              exitCode := 0, error := none } :=
  ⟨rfl, rfl⟩

/-- C3 (amended): exitCode equals the remote exit status exactly when the
wait reports a distinguishable `*ssh.ExitError`; in every other case —
including a wait error with no distinguishable exit status — exitCode is 0,
and the Result of a started command never carries the wait error. -/
theorem executeWithBecome_exit_code (host command : String) (become : Bool)
    (becomeUser out errOut : String) (w : WaitOutcome) :
    executeWithBecome host command become becomeUser (.ran out errOut w)
      = .ok { host := host, command := command, stdout := out, stderr := errOut,
              exitCode := waitForCommand w, error := none } ∧
    (∀ s : Int, waitForCommand (.exitError s) = s) ∧
    (∀ m : String, waitForCommand (.otherError m) = 0) ∧
    waitForCommand .success = 0 :=
  ⟨rfl, fun _ => rfl, fun _ => rfl, rfl⟩

/-- createErrorResult (client.go lines 422-432, and the identical
executor.createErrorResult, part_013 lines 292-302): a Failed result with
exit code -1 and the message and error joined in stderr. -/
def createErrorResult (host command e msg : String) : SshResult :=
  { host := host, command := command, stdout := "",
    stderr := msg ++ ": " ++ e, exitCode := -1, error := some e }

/-- getBackupPath (client.go lines 396-401) with the formatted
`YYYYMMDD-HHMMSS` timestamp supplied by the environment. -/
def getBackupPath (remotePath timestamp : String) : String :=
  remotePath ++ ".backup." ++ timestamp

/-- normalizeFileMode (client.go lines 358-363). -/
def normalizeFileMode (mode : String) : String :=
  if mode = "" then "0644" else mode

/-- Environment of one UploadFile call: each remote step's outcome. -/
structure UploadEnv where
  openErr : Option String
  connectErr : Option String
  existsResult : Except String Bool
  backupErr : Option String
  timestamp : String
  scpErr : Option String
  copyErr : Option String
deriving Repr, DecidableEq

/-- What one UploadFile call returns and does: the Result, the Go error
return, whether the destination was written (the SCP copy completed), and
whether a backup copy was made. -/
structure UploadOutcome where
  result : SshResult
  err : Option String
  wrote : Bool
  backedUp : Bool
deriving Repr, DecidableEq

/-- UploadFile (client.go lines 253-330): open the local file, connect,
check remote existence; an existing destination with neither force nor
backup is skipped with a non-transport failure Result (exitCode 1, nil Go
error, nothing written); backup (when requested) copies the existing file
aside before the SCP write; otherwise the file is uploaded and a success
Result (exitCode 0) reports the destination. -/
def uploadFile (host localPath remotePath mode : String) (backup force : Bool)
    (env : UploadEnv) : UploadOutcome :=
  let command := "upload " ++ localPath ++ " -> " ++ remotePath
  match env.openErr with
  | some e => ⟨createErrorResult host command e "打开本地文件失败", some e, false, false⟩
  | none =>
  match env.connectErr with
  | some e => ⟨createErrorResult host command e "连接失败", some e, false, false⟩
  | none =>
  match env.existsResult with
  | .error e => ⟨createErrorResult host command e "检查远程文件失败", some e, false, false⟩
  | .ok fileExists =>
    if fileExists && !force && !backup then
      ⟨{ host := host, command := command, stdout := "",
         stderr := "文件已存在，已跳过: " ++ remotePath ++ "（或使用 --force / --backup）",
         exitCode := 1, error := some "文件已存在，已跳过" }, none, false, false⟩
    else
      let backupStep : Except String (String × String × Bool) :=
        if fileExists && backup then
          match env.backupErr with
          | some e => .error e
          | none =>
            let bp := getBackupPath remotePath env.timestamp
            .ok ("upload " ++ localPath ++ " -> " ++ remotePath ++ " (已备份: " ++ bp ++ ")",
                 bp, true)
        else .ok (command, "", false)
      match backupStep with
      | .error e => ⟨createErrorResult host command e "备份远程文件失败", some e, false, false⟩
      | .ok step =>
      match env.scpErr with
      | some e => ⟨createErrorResult host step.1 e "创建 SCP 客户端失败", some e, false, step.2.2⟩
      | none =>
      match env.copyErr with
      | some e => ⟨createErrorResult host step.1 e "上传文件失败", some e, false, step.2.2⟩
      | none =>
        let stdoutMsg :=
          if fileExists && backup && step.2.1 ≠ "" then
            "文件已成功上传到 " ++ remotePath ++ " (已备份原文件: " ++ step.2.1 ++ ")"
          else if fileExists && force && !backup then
            "文件已成功覆盖 " ++ remotePath
          else "文件已成功上传到 " ++ remotePath
        ⟨{ host := host, command := step.1, stdout := stdoutMsg, stderr := "",
           exitCode := 0, error := none }, none, true, step.2.2⟩

/-- C4: with force=false and backup=false, an existing destination is
skipped: no write, no backup, exitCode 1, nil transport error, stderr
naming the conflicting remote path; a non-existing destination (with the
transport steps succeeding) is uploaded with exitCode 0. -/
theorem uploadFile_conflict_skip (host l r m : String) (env : UploadEnv)
    (hopen : env.openErr = none) (hconn : env.connectErr = none) :
    (env.existsResult = .ok true →
      (uploadFile host l r m false false env).result.exitCode = 1 ∧
      (uploadFile host l r m false false env).wrote = false ∧
      (uploadFile host l r m false false env).backedUp = false ∧
      (uploadFile host l r m false false env).err = none ∧
      (uploadFile host l r m false false env).result.error.isSome = true ∧
      (∃ p q, (uploadFile host l r m false false env).result.stderr = p ++ r ++ q)) ∧
    (env.existsResult = .ok false → env.scpErr = none → env.copyErr = none →
      (uploadFile host l r m false false env).result.exitCode = 0 ∧
      (uploadFile host l r m false false env).wrote = true) := by
  constructor
  · intro hex
    rw [uploadFile] at *
    simp only [hopen, hconn, hex]
    refine ⟨rfl, rfl, rfl, rfl, rfl, "文件已存在，已跳过: ", "（或使用 --force / --backup）", rfl⟩
  · intro hex hscp hcopy
    rw [uploadFile] at *
    simp only [hopen, hconn, hex, hscp, hcopy]
    exact ⟨rfl, rfl⟩

/-- Witness for C4 at a concrete environment: existing destination skipped,
fresh destination uploaded. -/
theorem uploadFile_conflict_skip_witness :
    ((uploadFile "h1" "/l" "/r" "" false false
        ⟨none, none, .ok true, none, "20260101-000000", none, none⟩).result.exitCode = 1 ∧
     (uploadFile "h1" "/l" "/r" "" false false
        ⟨none, none, .ok true, none, "20260101-000000", none, none⟩).wrote = false) ∧
    ((uploadFile "h1" "/l" "/r" "" false false
        ⟨none, none, .ok false, none, "20260101-000000", none, none⟩).result.exitCode = 0 ∧
     (uploadFile "h1" "/l" "/r" "" false false
        ⟨none, none, .ok false, none, "20260101-000000", none, none⟩).wrote = true) := by
  constructor
  · have h := (uploadFile_conflict_skip "h1" "/l" "/r" ""
      ⟨none, none, .ok true, none, "20260101-000000", none, none⟩ rfl rfl).1 rfl
    exact ⟨h.1, h.2.1⟩
  · have h := (uploadFile_conflict_skip "h1" "/l" "/r" ""
      ⟨none, none, .ok false, none, "20260101-000000", none, none⟩ rfl rfl).2 rfl rfl rfl
    exact h

/-- Environment of one ExecuteScriptWithBecome call (client.go lines
178-237): the clock+pid suffix of the temp file name, the upload's error
return, whether the separate cleanup connection dial succeeded, the
outcome of running the script through ExecuteWithBecome, and
cleanupTempFile's session error (the `rm -f` error itself is ignored,
client.go line 248). -/
structure ScriptEnv where
  tempSuffix : String
  uploadErr : Option String
  cleanupConnOk : Bool
  exec : ExecOutcome
  cleanupSessionErr : Option String
deriving Repr, DecidableEq

/-- What one ExecuteScriptWithBecome call returns and does: the (possibly
nil) Result, the Go error return, and whether the temp-file removal was
attempted (cleanupTempFile invoked). -/
structure ScriptOutcome where
  result : Option SshResult
  err : Option String
  cleanupAttempted : Bool
deriving Repr, DecidableEq

/-- ExecuteScriptWithBecome (client.go lines 178-237): default the
interpreter to "bash", upload the script to the temp path (force=true),
dial a separate cleanup connection, run `interpreter tempFile` through
ExecuteWithBecome, and attempt cleanupTempFile on both the error and the
success path whenever the cleanup connection exists; a cleanup failure
after a script that exited 0 only appends a warning to stderr. -/
def executeScriptWithBecome (host scriptPath : String) (become : Bool)
    (becomeUser interp : String) (env : ScriptEnv) : ScriptOutcome :=
  let interp := if interp = "" then "bash" else interp
  let tempFileName := "/tmp/gossh_script_" ++ env.tempSuffix
  match env.uploadErr with
  | some e =>
      ⟨some { host := host, command := scriptPath, stdout := "",
              stderr := "上传脚本失败: " ++ e, exitCode := -1, error := some e },
       some e, false⟩
  | none =>
    match executeWithBecome host (interp ++ " " ++ tempFileName) become becomeUser env.exec with
    | .error e => ⟨none, some e, env.cleanupConnOk⟩
    | .ok result =>
      if env.cleanupConnOk then
        match env.cleanupSessionErr with
        | some ce =>
            if result.exitCode = 0 then
              ⟨some { result with
                      stderr := result.stderr ++ "\n警告: 清理临时文件失败: " ++ ce },
               none, true⟩
            else ⟨some result, none, true⟩
        | none => ⟨some result, none, true⟩
      else ⟨some result, none, false⟩

/-- C8: once the script was uploaded, the temp-file removal is attempted
after the script runs on BOTH its success and failure paths — the attempt
happens exactly when the best-effort cleanup connection exists, never
depending on the script's outcome — and when cleanup fails while the
script itself exited 0, the warning is appended to stderr with the exit
code (and hence success status) unchanged; a failing script's Result is
returned unmodified. -/
theorem executeScript_cleanup_both_paths (host sp : String) (become : Bool)
    (becomeUser interp : String) (env : ScriptEnv)
    (hupload : env.uploadErr = none) :
    (executeScriptWithBecome host sp become becomeUser interp env).cleanupAttempted
        = env.cleanupConnOk ∧
    (∀ out errOut w ce,
      env.exec = .ran out errOut w → env.cleanupConnOk = true →
      env.cleanupSessionErr = some ce → waitForCommand w = 0 →
      (executeScriptWithBecome host sp become becomeUser interp env).result
        = some { host := host,
                 command := (if interp = "" then "bash" else interp)
                   ++ " " ++ ("/tmp/gossh_script_" ++ env.tempSuffix),
                 stdout := out,
                 stderr := errOut ++ "\n警告: 清理临时文件失败: " ++ ce,
                 exitCode := 0, error := none }) ∧
    (∀ out errOut w,
      env.exec = .ran out errOut w → env.cleanupConnOk = true →
      waitForCommand w ≠ 0 →
      (executeScriptWithBecome host sp become becomeUser interp env).result
        = some { host := host,
                 command := (if interp = "" then "bash" else interp)
                   ++ " " ++ ("/tmp/gossh_script_" ++ env.tempSuffix),
                 stdout := out, stderr := errOut,
                 exitCode := waitForCommand w, error := none }) := by
  refine ⟨?_, ?_, ?_⟩
  · rw [executeScriptWithBecome]
    simp only [hupload]
    cases hx : executeWithBecome host
        ((if interp = "" then "bash" else interp) ++ " " ++ ("/tmp/gossh_script_" ++ env.tempSuffix))
        become becomeUser env.exec with
    | error e => rfl
    | ok result =>
      cases hc : env.cleanupConnOk with
      | false => simp
      | true =>
        cases env.cleanupSessionErr with
        | none => simp
        | some ce =>
          by_cases hz : result.exitCode = 0 <;> simp [hz]
  · intro out errOut w ce hexec hconn hsess hzero
    rw [executeScriptWithBecome]
    simp only [hupload, hexec, executeWithBecome, hconn, hsess, hzero, if_true]
  · intro out errOut w hexec hconn hnz
    rw [executeScriptWithBecome]
    simp only [hupload, hexec, executeWithBecome, hconn, if_true]
    cases env.cleanupSessionErr with
    | none => simp
    | some ce => simp [hnz]

/-- Witness for C8 at a concrete environment: cleanup is attempted both for
an exit-0 script (warning appended, exit code still 0) and for an exit-3
script (result unchanged). -/
theorem executeScript_cleanup_both_paths_witness :
    (executeScriptWithBecome "h1" "/s.sh" false "" "bash"
        ⟨"1_2", none, true, .ran "ok" "" .success, some "no session"⟩).cleanupAttempted
      = true ∧
    (executeScriptWithBecome "h1" "/s.sh" false "" "bash"
        ⟨"1_2", none, true, .ran "ok" "" .success, some "no session"⟩).result
      = some { host := "h1", command := "bash /tmp/gossh_script_1_2", stdout := "ok",
               stderr := "\n警告: 清理临时文件失败: no session", exitCode := 0,
               error := none } ∧
    (executeScriptWithBecome "h1" "/s.sh" false "" "bash"
        ⟨"1_2", none, true, .ran "" "boom" (.exitError 3), some "no session"⟩).cleanupAttempted
      = true ∧
    (executeScriptWithBecome "h1" "/s.sh" false "" "bash"
        ⟨"1_2", none, true, .ran "" "boom" (.exitError 3), some "no session"⟩).result
      = some { host := "h1", command := "bash /tmp/gossh_script_1_2", stdout := "",
               stderr := "boom", exitCode := 3, error := none } := by
  have h1 := executeScript_cleanup_both_paths "h1" "/s.sh" false "" "bash"
    ⟨"1_2", none, true, .ran "ok" "" .success, some "no session"⟩ rfl
  have h2 := executeScript_cleanup_both_paths "h1" "/s.sh" false "" "bash"
    ⟨"1_2", none, true, .ran "" "boom" (.exitError 3), some "no session"⟩ rfl
  refine ⟨h1.1, ?_, h2.1, ?_⟩
  · have := h1.2.1 "ok" "" .success "no session" rfl rfl rfl rfl
    simpa using this
  · have := h2.2.2 "" "boom" (.exitError 3) rfl rfl (by decide)
    simpa using this

/-- Every Client operation constructs its success Result with `Host: c.host`
(client.go lines 103-104, 192-194, 321-322; likewise src/unnamed/part_007):
a started command's Result carries the client's host. -/
theorem executeWithBecome_ok_host (host command : String) (become : Bool)
    (becomeUser : String) (o : ExecOutcome) (r : SshResult)
    (h : executeWithBecome host command become becomeUser o = .ok r) : r.host = host := by
  cases o with
  | ran out errOut wait =>
      rw [executeWithBecome] at h
      rw [← Except.ok.inj h]
  | connectErr e => cases h
  | sessionErr e => cases h
  | pipesErr e => cases h
  | startErr e => cases h

/-- UploadFile's Result carries the client's host on every path
(client.go lines 253-330). -/
theorem uploadFile_result_host (host l r m : String) (backup force : Bool)
    (env : UploadEnv) : (uploadFile host l r m backup force env).result.host = host := by
  rw [uploadFile]
  repeat' split
  all_goals rfl

/-- ExecuteScriptWithBecome's non-nil Result carries the client's host on
every path (client.go lines 178-237). -/
theorem executeScriptWithBecome_result_host (host sp : String) (become : Bool)
    (becomeUser interp : String) (env : ScriptEnv) (r : SshResult)
    (hr : (executeScriptWithBecome host sp become becomeUser interp env).result = some r) :
    r.host = host := by
  rw [executeScriptWithBecome] at hr
  cases henv : env.uploadErr with
  | some e =>
      rw [henv] at hr
      simp only [Option.some.injEq] at hr
      rw [← hr]
  | none =>
      rw [henv] at hr
      simp only [] at hr
      cases hx : executeWithBecome host
          ((if interp = "" then "bash" else interp) ++ " " ++
            ("/tmp/gossh_script_" ++ env.tempSuffix)) become becomeUser env.exec with
      | error e => rw [hx] at hr; cases hr
      | ok res =>
          have hres : res.host = host := executeWithBecome_ok_host _ _ _ _ _ _ hx
          rw [hx] at hr
          cases hc : env.cleanupConnOk with
          | false => rw [hc] at hr; simp at hr; rw [← hr]; exact hres
          | true =>
              rw [hc] at hr
              cases hs : env.cleanupSessionErr with
              | none => rw [hs] at hr; simp at hr; rw [← hr]; exact hres
              | some ce =>
                  rw [hs] at hr
                  by_cases hz : res.exitCode = 0
                  · simp [hz] at hr; rw [← hr]; exact hres
                  · simp [hz] at hr; rw [← hr]; exact hres

/-! Bounded concurrent executor (src/unnamed/part_013). Each per-host task
runs independently; its interaction with the remote host is summarised by
a `TaskEnv`. Since every client operation stamps the client's host into
its Result (the three lemmas above) and the executor creates the client
with `h.Address` (part_013 line 195), a task's success Result is modelled
as a body completed with `host := h.address`. -/

/-- The Result fields a successful task returns, apart from the host. -/
structure TaskBody where
  command : String
  stdout : String
  stderr : String
  exitCode : Int
  error : Option String
deriving Repr, DecidableEq

/-- How one host's task goes: an unexpected runtime fault (panic) before a
result was recorded, a client-construction error, a task error, or a
returned Result. -/
inductive TaskEnv where
  | panics (m : String)
  | clientErr (e : String)
  | taskErr (e : String)
  | ok (b : TaskBody)
deriving Repr, DecidableEq

/-- A client operation's Result, host stamped in (see the lemmas above). -/
def clientTaskResult (clientHost : String) (b : TaskBody) : SshResult :=
  { host := clientHost, command := b.command, stdout := b.stdout,
    stderr := b.stderr, exitCode := b.exitCode, error := b.error }

/-- executeHostTask (part_013 lines 129-176) together with its handlers
(lines 198-302): a panic recovered at the task boundary writes a Failed
Result built by createErrorResult with message "panic" and error
`panic: <value>` (line 211); a client error writes one with message
"连接失败"; a task error one with "执行失败"; a returned Result is stored
as-is (handleTaskSuccess, lines 269-289). -/
def executeHostTask (command : String) (h : Host) (t : TaskEnv) : SshResult :=
  match t with
  | .panics m => createErrorResult h.address command ("panic: " ++ m) "panic"
  | .clientErr e => createErrorResult h.address command e "连接失败"
  | .taskErr e => createErrorResult h.address command e "执行失败"
  | .ok b => clientTaskResult h.address b

theorem executeHostTask_host (command : String) (h : Host) (t : TaskEnv) :
    (executeHostTask command h t).host = h.address := by
  cases t <;> rfl

/-- One completed task's write into the shared results slice
(handleTaskSuccess / handleTaskPanic / handleConnectionError /
handleTaskError all do `results[idx] = ...` under the mutex): index `i`'s
slot is set to host `i`'s own outcome. -/
def taskWrite (command : String) (hosts : List Host) (envs : List TaskEnv)
    (rs : List (Option SshResult)) (i : Nat) : List (Option SshResult) :=
  match hosts[i]?, envs[i]? with
  | some h, some t => rs.set i (some (executeHostTask command h t))
  | _, _ => rs

/-- executeConcurrent (part_013 lines 103-119): `results` starts as a
pre-sized nil slice (`make([]*ssh.Result, len(e.hosts))`), one task per
host writes its own index, and the tasks complete in an arbitrary order
given by `order`. -/
def executeConcurrent (command : String) (hosts : List Host) (envs : List TaskEnv)
    (order : List Nat) : List (Option SshResult) :=
  order.foldl (taskWrite command hosts envs) (List.replicate hosts.length none)

theorem taskWrite_length (command : String) (hosts : List Host) (envs : List TaskEnv)
    (rs : List (Option SshResult)) (i : Nat) :
    (taskWrite command hosts envs rs i).length = rs.length := by
  rw [taskWrite]
  split
  · exact List.length_set rs i _
  · rfl

theorem foldl_taskWrite_length (command : String) (hosts : List Host)
    (envs : List TaskEnv) (order : List Nat) (rs : List (Option SshResult)) :
    (order.foldl (taskWrite command hosts envs) rs).length = rs.length := by
  induction order generalizing rs with
  | nil => rfl
  | cons i rest ih => rw [List.foldl_cons, ih, taskWrite_length]

theorem taskWrite_get_ne (command : String) (hosts : List Host) (envs : List TaskEnv)
    (rs : List (Option SshResult)) (i j : Nat) (hne : i ≠ j) :
    (taskWrite command hosts envs rs i)[j]? = rs[j]? := by
  rw [taskWrite]
  split
  · exact List.getElem?_set_ne hne
  · rfl

theorem foldl_taskWrite_get_not_mem (command : String) (hosts : List Host)
    (envs : List TaskEnv) (order : List Nat) (rs : List (Option SshResult))
    (j : Nat) (hj : j ∉ order) :
    (order.foldl (taskWrite command hosts envs) rs)[j]? = rs[j]? := by
  induction order generalizing rs with
  | nil => rfl
  | cons i rest ih =>
      have hji : i ≠ j := fun e => hj (by simp [e])
      have hjr : j ∉ rest := fun hm => hj (List.mem_cons_of_mem i hm)
      rw [List.foldl_cons, ih _ hjr, taskWrite_get_ne _ _ _ _ _ _ hji]

/-- The heart of index stability: whatever the completion order, index `j`
holds host `j`'s own outcome once task `j` has completed. -/
theorem foldl_taskWrite_get (command : String) (hosts : List Host) (envs : List TaskEnv)
    (order : List Nat) (rs : List (Option SshResult)) (j : Nat) (h : Host) (t : TaskEnv)
    (hh : hosts[j]? = some h) (ht : envs[j]? = some t)
    (hlen : rs.length = hosts.length) (hjmem : j ∈ order) :
    (order.foldl (taskWrite command hosts envs) rs)[j]?
      = some (some (executeHostTask command h t)) := by
  induction order generalizing rs with
  | nil => cases hjmem
  | cons i rest ih =>
      by_cases hjr : j ∈ rest
      · rw [List.foldl_cons]
        exact ih _ (by rw [taskWrite_length, hlen]) hjr
      · have hji : j = i := by
          rcases List.mem_cons.mp hjmem with h1 | h2
          · exact h1
          · exact absurd h2 hjr
        subst hji
        rw [List.foldl_cons, foldl_taskWrite_get_not_mem _ _ _ rest _ j hjr]
        rw [taskWrite, hh, ht]
        have hjlt : j < rs.length := by
          rw [hlen]
          exact (List.getElem?_eq_some.mp hh).1
        exact List.getElem?_set_self hjlt

/-- C1: for every executor run over a host list of length N (the shared
executeConcurrent used by ExecuteCommand, ExecuteScript, UploadFile and
their WithBecome variants), whatever order the per-host tasks complete in,
the returned slice has length N, slot i holds exactly the result produced
for hosts[i], and that result's Host equals hosts[i].Address. -/
theorem executeConcurrent_index_stable (command : String) (hosts : List Host)
    (envs : List TaskEnv) (order : List Nat)
    (hlen : envs.length = hosts.length)
    (hperm : order.Perm (List.range hosts.length)) :
    (executeConcurrent command hosts envs order).length = hosts.length ∧
    ∀ (i : Nat) (h : Host) (t : TaskEnv), hosts[i]? = some h → envs[i]? = some t →
      (executeConcurrent command hosts envs order)[i]?
          = some (some (executeHostTask command h t)) ∧
      (executeHostTask command h t).host = h.address := by
  constructor
  · rw [executeConcurrent, foldl_taskWrite_length, List.length_replicate]
  · intro i h t hh ht
    have hi : i < hosts.length := (List.getElem?_eq_some.mp hh).1
    have hmem : i ∈ order := hperm.mem_iff.mpr (List.mem_range.mpr hi)
    exact ⟨foldl_taskWrite_get command hosts envs order _ i h t hh ht
        (List.length_replicate _ _) hmem,
      executeHostTask_host command h t⟩

/-- Witness for C1: two hosts completing in reversed order still land at
their own indices. -/
theorem executeConcurrent_index_stable_witness :
    executeConcurrent "uptime"
        [⟨"a", "22", "", "", []⟩, ⟨"b", "22", "", "", []⟩]
        [.ok ⟨"uptime", "up", "", 0, none⟩, .clientErr "dial tcp: refused"]
        [1, 0]
      = [some (clientTaskResult "a" ⟨"uptime", "up", "", 0, none⟩),
         some (createErrorResult "b" "uptime" "dial tcp: refused" "连接失败")] ∧
    (executeConcurrent "uptime"
        [⟨"a", "22", "", "", []⟩, ⟨"b", "22", "", "", []⟩]
        [.ok ⟨"uptime", "up", "", 0, none⟩, .clientErr "dial tcp: refused"]
        [1, 0])[0]?
      = some (some (executeHostTask "uptime" ⟨"a", "22", "", "", []⟩
          (.ok ⟨"uptime", "up", "", 0, none⟩))) := by
  constructor
  · rfl
  · exact ((executeConcurrent_index_stable "uptime"
      [⟨"a", "22", "", "", []⟩, ⟨"b", "22", "", "", []⟩]
      [.ok ⟨"uptime", "up", "", 0, none⟩, .clientErr "dial tcp: refused"]
      [1, 0] (by decide) (by decide)).2 0
      ⟨"a", "22", "", "", []⟩ (.ok ⟨"uptime", "up", "", 0, none⟩) rfl rfl).1

/-- C7: a panic inside one per-host task is caught at the task boundary
(handleTaskPanic, part_013 lines 198-223) and converted into a Failed
Result (exit code -1) at that host's own index; after the run every index
holds a result, and every sibling index holds exactly its own task's
result, unaffected by the fault. -/
theorem executeConcurrent_panic_isolated (command : String) (hosts : List Host)
    (envs : List TaskEnv) (order : List Nat) (i : Nat) (m : String)
    (hlen : envs.length = hosts.length)
    (hperm : order.Perm (List.range hosts.length))
    (hpanic : envs[i]? = some (.panics m)) :
    (∀ j, j < hosts.length →
      ∃ r, (executeConcurrent command hosts envs order)[j]? = some (some r)) ∧
    (∀ h : Host, hosts[i]? = some h →
      (executeConcurrent command hosts envs order)[i]?
          = some (some (createErrorResult h.address command ("panic: " ++ m) "panic")) ∧
      (createErrorResult h.address command ("panic: " ++ m) "panic").exitCode = -1) ∧
    (∀ (j : Nat) (h : Host) (t : TaskEnv), j ≠ i → hosts[j]? = some h → envs[j]? = some t →
      (executeConcurrent command hosts envs order)[j]?
          = some (some (executeHostTask command h t))) := by
  refine ⟨?_, ?_, ?_⟩
  · intro j hj
    have hh : hosts[j]? = some hosts[j] := List.getElem?_eq_getElem hj
    have hj' : j < envs.length := by rw [hlen]; exact hj
    have ht : envs[j]? = some envs[j] := List.getElem?_eq_getElem hj'
    have hmem : j ∈ order := hperm.mem_iff.mpr (List.mem_range.mpr hj)
    exact ⟨executeHostTask command hosts[j] envs[j],
      foldl_taskWrite_get command hosts envs order _ j _ _ hh ht
        (List.length_replicate _ _) hmem⟩
  · intro h hh
    have hi : i < hosts.length := (List.getElem?_eq_some.mp hh).1
    have hmem : i ∈ order := hperm.mem_iff.mpr (List.mem_range.mpr hi)
    exact ⟨foldl_taskWrite_get command hosts envs order _ i h (.panics m) hh hpanic
        (List.length_replicate _ _) hmem, rfl⟩
  · intro j h t _ hh ht
    have hj : j < hosts.length := (List.getElem?_eq_some.mp hh).1
    have hmem : j ∈ order := hperm.mem_iff.mpr (List.mem_range.mpr hj)
    exact foldl_taskWrite_get command hosts envs order _ j h t hh ht
      (List.length_replicate _ _) hmem

/-- Witness for C7: host 0 panics, host 1 is untouched and both slots are
filled. -/
theorem executeConcurrent_panic_isolated_witness :
    (executeConcurrent "uptime"
        [⟨"a", "22", "", "", []⟩, ⟨"b", "22", "", "", []⟩]
        [.panics "index out of range", .ok ⟨"uptime", "up", "", 0, none⟩]
        [0, 1])[0]?
      = some (some (createErrorResult "a" "uptime"
          ("panic: " ++ "index out of range") "panic")) ∧
    (executeConcurrent "uptime"
        [⟨"a", "22", "", "", []⟩, ⟨"b", "22", "", "", []⟩]
        [.panics "index out of range", .ok ⟨"uptime", "up", "", 0, none⟩]
        [0, 1])[1]?
      = some (some (executeHostTask "uptime" ⟨"b", "22", "", "", []⟩
          (.ok ⟨"uptime", "up", "", 0, none⟩))) := by
  have h := executeConcurrent_panic_isolated "uptime"
    [⟨"a", "22", "", "", []⟩, ⟨"b", "22", "", "", []⟩]
    [.panics "index out of range", .ok ⟨"uptime", "up", "", 0, none⟩]
    [0, 1] 0 "index out of range" (by decide) (by decide) rfl
  exact ⟨(h.2.1 ⟨"a", "22", "", "", []⟩ rfl).1,
    h.2.2 1 ⟨"b", "22", "", "", []⟩ (.ok ⟨"uptime", "up", "", 0, none⟩)
      (by decide) rfl rfl⟩

/-- normalizeConcurrency (part_013 lines 121-127): a non-positive caller
value is replaced by the default 5. -/
def normalizeConcurrency (concurrency : Int) : Int :=
  if concurrency ≤ 0 then 5 else concurrency

/-- The admission gate's state: which task indices still wait before
`semaphore <- struct{}{}`, which are active (holding a semaphore slot,
part_013 lines 153-155), and which have finished (released it). -/
structure GateState where
  waiting : List Nat
  active : List Nat
  finished : List Nat
deriving Repr, DecidableEq

/-- One scheduler step of the gated run: a buffered channel of capacity
`cap` admits a waiting task only while fewer than `cap` tasks hold a slot
(`semaphore <- struct{}{}` blocks otherwise), and an active task may
finish, releasing its slot (`defer func() { <-semaphore }()`). -/
inductive GateStep (cap : Nat) : GateState → GateState → Prop
  | acquire (i : Nat) (s : GateState) :
      i ∈ s.waiting → s.active.length < cap →
      GateStep cap s ⟨s.waiting.erase i, i :: s.active, s.finished⟩
  | finish (i : Nat) (s : GateState) :
      i ∈ s.active →
      GateStep cap s ⟨s.waiting, s.active.erase i, i :: s.finished⟩

/-- The run's start: all N spawned tasks wait at the gate, none admitted. -/
def gateInit (n : Nat) : GateState :=
  ⟨List.range n, [], []⟩

/-- The states an N-task run with capacity `cap` can reach. -/
def GateReachable (cap n : Nat) (s : GateState) : Prop :=
  Relation.ReflTransGen (GateStep cap) (gateInit n) s

theorem gateStep_active_le (cap : Nat) {s s' : GateState}
    (hs : s.active.length ≤ cap) (h : GateStep cap s s') :
    s'.active.length ≤ cap := by
  cases h with
  | acquire i s hmem hlt => simpa using hlt
  | finish i s hmem =>
      exact le_trans (List.length_erase_le i s.active) hs

theorem gateReachable_active_le (cap n : Nat) (s : GateState)
    (h : GateReachable cap n s) : s.active.length ≤ cap := by
  induction h with
  | refl => simp [gateInit]
  | tail _ hstep ih => exact gateStep_active_le cap ih hstep

/-- C6: in every reachable state of an executor run over any host count,
the number of tasks simultaneously active past the admission gate never
exceeds the normalized concurrency limit: at most C when the caller passed
C ≥ 1, and at most the default 5 when the caller passed C ≤ 0. -/
theorem executor_concurrency_bound (c : Int) (n : Nat) (s : GateState)
    (h : GateReachable (normalizeConcurrency c).toNat n s) :
    ((s.active.length : Int) ≤ normalizeConcurrency c) ∧
    (c ≤ 0 → (s.active.length : Int) ≤ 5) ∧
    (1 ≤ c → (s.active.length : Int) ≤ c) ∧
    normalizeConcurrency c = if c ≤ 0 then 5 else c := by
  have hle := gateReachable_active_le _ n s h
  have hpos : 0 < normalizeConcurrency c := by
    rw [normalizeConcurrency]
    split <;> omega
  have hcast : ((normalizeConcurrency c).toNat : Int) = normalizeConcurrency c :=
    Int.toNat_of_nonneg (le_of_lt hpos)
  have hle' : (s.active.length : Int) ≤ normalizeConcurrency c := by
    rw [← hcast]
    exact_mod_cast hle
  refine ⟨hle', ?_, ?_, rfl⟩
  · intro hc
    have h5 : normalizeConcurrency c = 5 := by rw [normalizeConcurrency, if_pos hc]
    rwa [h5] at hle'
  · intro hc
    have hcc : normalizeConcurrency c = c := by
      rw [normalizeConcurrency, if_neg (by omega)]
    rwa [hcc] at hle'

/-- Witness for C6: with caller value -3 the enforced bound is the default
5, and a state with one admitted task (reached by one admit step) respects
it. -/
theorem executor_concurrency_bound_witness :
    (((⟨(List.range 4).erase 0, [0], []⟩ : GateState).active.length : Int)
        ≤ normalizeConcurrency (-3)) ∧
    normalizeConcurrency (-3) = 5 := by
  have hreach : GateReachable ((normalizeConcurrency (-3)).toNat) 4
      ⟨(List.range 4).erase 0, [0], []⟩ :=
    Relation.ReflTransGen.single (GateStep.acquire 0 (gateInit 4) (by decide) (by decide))
  exact ⟨(executor_concurrency_bound (-3) 4 _ hreach).1, by decide⟩

end Gossh
